import Mathlib

/-!
Verification development for the image-preprocessing pipeline of the OCR
repository (src/preprocessing/image_preprocessing.py).

The Python module is shallowly embedded: images are finite buffers of
rational intensity samples, the external Tesseract engine (pytesseract) is
modelled as an explicit oracle structure, and the external OpenCV
primitives that the claims depend on (matrix construction, channel
conversion, resizing arithmetic) are modelled exactly where the claims are
about their arithmetic, and by documented simple models where no claim
depends on their pixel content.

Machine floats of the source are modelled by exact rationals; Python int()
truncation of nonnegative values is Int.floor, and numpy astype(uint8) is
truncation with wrap-around modulo 256.
-/

namespace OCR

/-- Sample representation tag of a numpy buffer: uint8, float32 or float64.
The source checks dtype at the exit adapter before rescaling to 8-bit. -/
inductive Dtype where
  | u8
  | f32
  | f64
deriving DecidableEq

/-- A numpy image buffer: explicit width, height and channel count, with the
samples stored row-major (and channel-interleaved when channels > 1).
Intensity samples are exact rationals standing for the numeric content. -/
structure Image where
  width : Nat
  height : Nat
  channels : Nat
  data : List ℚ
  dtype : Dtype
deriving DecidableEq

/-- Single-channel sample access gray[y, x]; out-of-range reads default to 0
(the model never relies on them for well-formed buffers). -/
def Image.px (img : Image) (y x : Nat) : ℚ :=
  img.data.getD (y * img.width + x) 0

/-- Multi-channel sample access image[y, x, c] for interleaved buffers. -/
def Image.px3 (img : Image) (y x c : Nat) : ℚ :=
  img.data.getD ((y * img.width + x) * img.channels + c) 0

/-- Row-major rebuild of a height-by-width single-channel buffer from a
sample function. -/
def buildData (h w : Nat) (f : Nat → Nat → ℚ) : List ℚ :=
  (List.range (h * w)).map (fun i => f (i / w) (i % w))

theorem buildData_length (h w : Nat) (f : Nat → Nat → ℚ) :
    (buildData h w f).length = h * w := by
  simp [buildData]

/-- Rebuilding a buffer from its own sample function returns the buffer,
provided the buffer has exactly height * width samples. -/
theorem buildData_px (img : Image) (hlen : img.data.length = img.height * img.width)
    (f : Nat → Nat → ℚ)
    (hf : ∀ y x, y < img.height → x < img.width → f y x = img.px y x) :
    buildData img.height img.width f = img.data := by
  apply List.ext_getElem
  · simp [buildData, hlen]
  · intro i h1 h2
    have hi : i < img.height * img.width := by
      simpa [buildData] using h1
    have hw : 0 < img.width := by
      rcases Nat.eq_zero_or_pos img.width with h0 | h0
      · rw [h0, Nat.mul_zero] at hi
        exact absurd hi (Nat.not_lt_zero i)
      · exact h0
    have hdiv : i / img.width < img.height := (Nat.div_lt_iff_lt_mul hw).mpr hi
    have hmod : i % img.width < img.width := Nat.mod_lt _ hw
    simp only [buildData, List.getElem_map, List.getElem_range]
    rw [hf _ _ hdiv hmod]
    unfold Image.px
    have hidx : (i / img.width) * img.width + i % img.width = i := by
      rw [Nat.mul_comm]
      exact Nat.div_add_mod i img.width
    rw [hidx]
    exact List.getD_eq_getElem img.data 0 (by omega)

/-- Cosine and sine (in degrees) used by cv2.getRotationMatrix2D. The trig
functions live in the external math library; the model is exact at the
quarter-turn angles, which are the only angles whose rotated content any
claim depends on (the orientation corrector uses 0, -90, -180, -270), and
returns the 0-degree value elsewhere. -/
def rotCS (angle : ℚ) : ℚ × ℚ :=
  if angle = 0 then (1, 0)
  else if angle = -90 then (0, -1)
  else if angle = -180 then (-1, 0)
  else if angle = -270 then (0, 1)
  else if angle = 90 then (0, 1)
  else if angle = 180 then (-1, 0)
  else if angle = 270 then (0, -1)
  else (1, 0)

/-- Modelled from the spec: cv2.warpAffine is external to this repository.
Per the spec (section 4.2) rotation maps the source into the expanded
canvas and fills uncovered area with constant black (0). The model applies
the inverse affine map to each destination pixel and samples the source at
the nearest lattice point, which is exact whenever the map sends lattice
points to lattice points; no claim depends on interpolated values at
fractional positions. A singular matrix yields a zero image (degenerate
geometry). The matrix rows are (a, b, t02) and (c, d, t12). -/
def warpAffineModel (src : Image) (a b t02 c d t12 : ℚ) (nW nH : Nat) : Image :=
  let det := a * d - b * c
  let pix := fun (y x : Nat) =>
    if det = 0 then 0 else
      let sx := (d * ((x : ℚ) - t02) - b * ((y : ℚ) - t12)) / det
      let sy := (-c * ((x : ℚ) - t02) + a * ((y : ℚ) - t12)) / det
      let xi := ⌊sx + 1 / 2⌋
      let yi := ⌊sy + 1 / 2⌋
      if 0 ≤ xi ∧ xi < (src.width : ℤ) ∧ 0 ≤ yi ∧ yi < (src.height : ℤ)
      then src.px yi.toNat xi.toNat else 0
  Image.mk nW nH 1 (buildData nH nW pix) src.dtype

/-- rotate_bound(gray, angle): rotate without cropping. Mirrors the source:
center (w // 2, h // 2), rotation matrix from cv2.getRotationMatrix2D
(alpha = cos, beta = sin; third column (1 - alpha) * cX - beta * cY and
beta * cX + (1 - alpha) * cY), new canvas int(h * sin + w * cos) by
int(h * cos + w * sin) from the absolute matrix entries, recentering shift
nW / 2 - cX and nH / 2 - cY, then warpAffine with constant 0 border. -/
def rotate_bound (gray : Image) (angle : ℚ) : Image :=
  let h := gray.height
  let w := gray.width
  let cX : Nat := w / 2
  let cY : Nat := h / 2
  let cs := rotCS angle
  let a : ℚ := cs.1
  let b : ℚ := cs.2
  let m02 : ℚ := (1 - a) * (cX : ℚ) - b * (cY : ℚ)
  let m12 : ℚ := b * (cX : ℚ) + (1 - a) * (cY : ℚ)
  let cosA : ℚ := |a|
  let sinA : ℚ := |b|
  let nW : Nat := (⌊(h : ℚ) * sinA + (w : ℚ) * cosA⌋).toNat
  let nH : Nat := (⌊(h : ℚ) * cosA + (w : ℚ) * sinA⌋).toNat
  let t02 : ℚ := m02 + ((nW : ℚ) / 2 - (cX : ℚ))
  let t12 : ℚ := m12 + ((nH : ℚ) / 2 - (cY : ℚ))
  warpAffineModel gray a b t02 (-b) a t12 nW nH

theorem half_sub_halfdiv_nonneg (w : Nat) :
    0 ≤ (w : ℚ) / 2 - ((w / 2 : Nat) : ℚ) := by
  have h := Nat.div_add_mod w 2
  have h2 : w % 2 < 2 := Nat.mod_lt _ (by norm_num)
  have hc : ((2 * (w / 2) + w % 2 : Nat) : ℚ) = (w : ℚ) := by rw [h]
  push_cast at hc
  have hm : (0 : ℚ) ≤ ((w % 2 : Nat) : ℚ) := by positivity
  linarith

theorem half_sub_halfdiv_le (w : Nat) :
    (w : ℚ) / 2 - ((w / 2 : Nat) : ℚ) ≤ 1 / 2 := by
  have h := Nat.div_add_mod w 2
  have h2 : w % 2 < 2 := Nat.mod_lt _ (by norm_num)
  have hc : ((2 * (w / 2) + w % 2 : Nat) : ℚ) = (w : ℚ) := by rw [h]
  push_cast at hc
  have hm : ((w % 2 : Nat) : ℚ) ≤ 1 := by
    have : w % 2 ≤ 1 := by omega
    exact_mod_cast this
  linarith

theorem floor_shift_half (x : Nat) (t : ℚ) (h0 : 0 ≤ t) (h1 : t ≤ 1 / 2) :
    ⌊(x : ℚ) - t + 1 / 2⌋ = (x : ℤ) := by
  rw [Int.floor_eq_iff]
  constructor
  · push_cast
    linarith
  · push_cast
    linarith

/-- Applying the inverse-mapped warp with an identity linear part and a
translation of at most half a pixel in each axis is the identity on a
well-formed single-channel buffer: every destination lattice point samples
its own source lattice point. -/
theorem warpAffine_translation_id (src : Image) (hch : src.channels = 1)
    (hlen : src.data.length = src.height * src.width)
    (tx ty : ℚ) (hx0 : 0 ≤ tx) (hx1 : tx ≤ 1 / 2) (hy0 : 0 ≤ ty) (hy1 : ty ≤ 1 / 2) :
    warpAffineModel src 1 0 tx 0 1 ty src.width src.height = src := by
  have hdata : ∀ f : Nat → Nat → ℚ,
      (∀ y x, y < src.height → x < src.width → f y x = src.px y x) →
      buildData src.height src.width f = src.data := fun f hf => buildData_px src hlen f hf
  rcases src with ⟨w, h, ch, data, dt⟩
  simp only at hch hlen hdata ⊢
  subst hch
  unfold warpAffineModel
  simp only
  congr 1
  apply hdata
  intro y x hy hx
  rw [if_neg (by norm_num : ¬((1 : ℚ) * 1 - 0 * 0 = 0))]
  have hxe : (1 * ((x : ℚ) - tx) - 0 * ((y : ℚ) - ty)) / ((1 : ℚ) * 1 - 0 * 0) + 1 / 2
      = (x : ℚ) - tx + 1 / 2 := by ring
  have hye : (-0 * ((x : ℚ) - tx) + 1 * ((y : ℚ) - ty)) / ((1 : ℚ) * 1 - 0 * 0) + 1 / 2
      = (y : ℚ) - ty + 1 / 2 := by ring
  rw [hxe, hye, floor_shift_half x tx hx0 hx1, floor_shift_half y ty hy0 hy1]
  rw [if_pos]
  · simp
  · exact ⟨by positivity, by exact_mod_cast hx, by positivity, by exact_mod_cast hy⟩

/-- Rotating a well-formed single-channel buffer by 0 degrees is the
identity: the matrix is a translation by at most half a pixel in each axis
(exactly (w mod 2) / 2 and (h mod 2) / 2), so every destination lattice
point samples its own source lattice point. -/
theorem rotate_bound_zero (gray : Image) (hch : gray.channels = 1)
    (hlen : gray.data.length = gray.height * gray.width) :
    rotate_bound gray 0 = gray := by
  have hcs : rotCS 0 = (1, 0) := by norm_num [rotCS]
  unfold rotate_bound
  rw [hcs]
  simp only [abs_one, abs_zero, mul_one, mul_zero, zero_add, add_zero, sub_self,
    zero_mul, one_mul, neg_zero, sub_zero, Int.floor_natCast, Int.toNat_natCast]
  exact warpAffine_translation_id gray hch hlen _ _
    (half_sub_halfdiv_nonneg gray.width) (half_sub_halfdiv_le gray.width)
    (half_sub_halfdiv_nonneg gray.height) (half_sub_halfdiv_le gray.height)

/-- One line of the Tesseract OSD report, as consumed by get_osd_info: a
Rotate line carrying an integer, an Orientation confidence line carrying a
number, or any other line. -/
inductive OsdLine where
  | rotateLine (v : ℤ)
  | confLine (v : ℚ)
  | otherLine
deriving DecidableEq

/-- One word record of the Tesseract data dictionary, as consumed by
crop_to_text: recognized text, the confidence field (none when the Python
float() call on it raises), and the left/top/width/height box fields. -/
structure TessWord where
  text : String
  conf : Option ℚ
  left : ℤ
  top : ℤ
  boxW : ℤ
  boxH : ℤ
deriving DecidableEq

/-- The external recognition oracle (pytesseract). image_to_osd returns the
parsed lines of the OSD report, or none when the call raises (the source
catches every exception from the call and from parsing its lines);
image_to_string returns the recognized text; image_to_data returns the
word records of the data dictionary. -/
structure Tesseract where
  image_to_osd : Image → Option (List OsdLine)
  image_to_string : Image → String
  image_to_data : Image → List TessWord

/-- get_osd_info(gray): scan the OSD report lines, keeping the last Rotate
value (initial 0) and the last Orientation confidence value (initial 0.0);
on any exception return (None, None). -/
def get_osd_info (T : Tesseract) (gray : Image) : Option ℤ × Option ℚ :=
  match T.image_to_osd gray with
  | none => (none, none)
  | some lines =>
      let r := lines.foldl (fun st line =>
        match line with
        | OsdLine.rotateLine v => (v, st.2)
        | OsdLine.confLine c => (st.1, c)
        | OsdLine.otherLine => st) ((0 : ℤ), (0 : ℚ))
      (some r.1, some r.2)

/-- get_ocr_text_score(gray): count of alphanumeric characters in the text
recognized on the image. -/
def get_ocr_text_score (T : Tesseract) (gray : Image) : Nat :=
  (T.image_to_string gray).toList.countP (fun c => c.isAlphanum)

/-- evaluate_candidate(gray, candidate_angle): rotate by the negated
candidate angle, query OSD (substituting the sentinel 360 when it failed),
count alphanumeric characters, and combine as ocr_score - 50 * |rotate|.
Returns (combined_score, candidate_image, osd_rotate). -/
def evaluate_candidate (T : Tesseract) (gray : Image) (candidate_angle : ℚ) :
    ℤ × Image × ℤ :=
  let candidate_image := rotate_bound gray (-candidate_angle)
  let osd := get_osd_info T candidate_image
  let osd_rotate : ℤ := match osd.1 with
    | none => 360
    | some v => v
  let ocr_score : Nat := get_ocr_text_score T candidate_image
  let penalty : ℤ := 50 * |osd_rotate|
  ((ocr_score : ℤ) - penalty, candidate_image, osd_rotate)

/-- Accumulator of the candidate scan in correct_orientation: best_score
(none stands for the initial -infinity), best_image and best_angle. -/
structure OrientState where
  best_score : Option ℤ
  best_image : Image
  best_angle : Option ℚ
deriving DecidableEq

/-- One iteration of the candidate loop: evaluate the candidate and keep it
exactly when its score is strictly greater than the best so far (the
initial -infinity loses to every score). -/
def orientStep (T : Tesseract) (gray : Image) (st : OrientState) (angle : ℚ) :
    OrientState :=
  let r := evaluate_candidate T gray angle
  match st.best_score with
  | none => ⟨some r.1, r.2.1, some angle⟩
  | some bs => if bs < r.1 then ⟨some r.1, r.2.1, some angle⟩ else st

/-- correct_orientation(gray): scan the candidates 0, 90, 180, 270 in that
fixed order, starting from best_score = -infinity and best_image = gray,
and return the best image. -/
def correct_orientation (T : Tesseract) (gray : Image) : Image :=
  (([0, 90, 180, 270] : List ℚ).foldl (orientStep T gray)
    ⟨none, gray, none⟩).best_image

/-- Python str.strip() on the recognized text: whitespace dropped from both
ends, modelled over the character list. -/
def stripText (s : String) : String :=
  String.mk (((s.toList.dropWhile Char.isWhitespace).reverse.dropWhile
    Char.isWhitespace).reverse)

/-- Surviving boxes of crop_to_text, in scan order: a word whose conf field
fails to parse gets conf 0 (the except branch); a word survives when its
conf is strictly above min_conf and its stripped text is nonempty (Python
truthiness of the stripped string), and contributes the box
(left, top, left + width, top + height). -/
def boxesOf (words : List TessWord) (min_conf : ℚ) : List (ℤ × ℤ × ℤ × ℤ) :=
  words.filterMap (fun wd =>
    if min_conf < wd.conf.getD 0 ∧ stripText wd.text ≠ "" then
      some (wd.left, wd.top, wd.left + wd.boxW, wd.top + wd.boxH)
    else none)

/-- The crop rectangle of crop_to_text: none when no box survives,
otherwise the margin-expanded union rectangle clamped to the image bounds
exactly as in the source: x_min = max(min lefts - margin, 0),
y_min = max(min tops - margin, 0), x_max = min(max rights + margin, width),
y_max = min(max bottoms + margin, height). -/
def crop_rect (gray : Image) (boxes : List (ℤ × ℤ × ℤ × ℤ)) (margin : ℤ) :
    Option (ℤ × ℤ × ℤ × ℤ) :=
  match boxes with
  | [] => none
  | b :: bs =>
      let x0 := max ((bs.map (fun p => p.1)).foldl min b.1 - margin) 0
      let y0 := max ((bs.map (fun p => p.2.1)).foldl min b.2.1 - margin) 0
      let x1 := min ((bs.map (fun p => p.2.2.1)).foldl max b.2.2.1 + margin) (gray.width : ℤ)
      let y1 := min ((bs.map (fun p => p.2.2.2)).foldl max b.2.2.2 + margin) (gray.height : ℤ)
      some (x0, y0, x1, y1)

/-- Numpy basic slice index: a negative index counts from the end, then the
result is clamped to the interval from 0 to len. -/
def npIndex (len : Nat) (i : ℤ) : Nat :=
  let j := if i < 0 then i + (len : ℤ) else i
  (min (max j 0) (len : ℤ)).toNat

/-- The numpy view gray[y0:y1, x0:x1]. -/
def npSlice2 (gray : Image) (y0 y1 x0 x1 : ℤ) : Image :=
  let ys := npIndex gray.height y0
  let ye := npIndex gray.height y1
  let xs := npIndex gray.width x0
  let xe := npIndex gray.width x1
  let nh := ye - ys
  let nw := xe - xs
  Image.mk nw nh gray.channels
    (buildData nh nw (fun y x => gray.px (ys + y) (xs + x))) gray.dtype

/-- crop_to_text(gray, min_conf, margin): filter the oracle word records by
confidence, and crop to the clamped margin-expanded union rectangle; when
no box survives, return the image unchanged. Source defaults:
min_conf = 60, margin = 100. -/
def crop_to_text (T : Tesseract) (gray : Image) (min_conf : ℚ) (margin : ℤ) :
    Image :=
  let boxes := boxesOf (T.image_to_data gray) min_conf
  match crop_rect gray boxes margin with
  | none => gray
  | some r => npSlice2 gray r.2.1 r.2.2.2 r.1 r.2.2.1

/-- Error raised at the format-adapter boundary (cv2.error in the source,
the FormatError of the spec). -/
inductive PipeErr where
  | formatError
deriving DecidableEq

/-- Fixed-point BGR-to-gray luma of OpenCV: the channel weights 1868, 9617
and 4899 (for B, G, R) sum to 2 to the 14, and the product is descaled
with rounding by adding 8192 before the shift. Fractional sample values
are floored first (u8 buffers hold integers, so this is exact). -/
def lumaBGR (b g r : ℚ) : ℚ :=
  (((1868 * ⌊b⌋ + 9617 * ⌊g⌋ + 4899 * ⌊r⌋ + 8192) / 16384 : ℤ) : ℚ)

/-- Modelled from the OpenCV documentation of the external cv2.cvtColor
with COLOR_BGR2GRAY: the call raises when the source buffer is empty and
when the source has neither 3 nor 4 channels (a single-channel source is
rejected), and otherwise produces the single-channel fixed-point luma
image (an alpha channel is ignored). -/
def cvtColorBGR2GRAY (image : Image) : Except PipeErr Image :=
  if image.width = 0 ∨ image.height = 0 then Except.error PipeErr.formatError
  else if image.channels = 3 ∨ image.channels = 4 then
    Except.ok (Image.mk image.width image.height 1
      (buildData image.height image.width (fun y x =>
        lumaBGR (image.px3 y x 0) (image.px3 y x 1) (image.px3 y x 2)))
      image.dtype)
  else Except.error PipeErr.formatError

/-- correct_format_for_preprocessing(image): the entry adapter; the body is
exactly cv2.cvtColor(image, cv2.COLOR_BGR2GRAY). -/
def correct_format_for_preprocessing (image : Image) : Except PipeErr Image :=
  cvtColorBGR2GRAY image

/-- resize_normalize(gray, target_width): ratio = target_width / w (the
source raises ZeroDivisionError when w = 0; the model returns the rational
0 there, and every claim about this function assumes w > 0), new height
int(h * ratio) (Python int() truncation; the operand is nonnegative so
this is the floor), resize with cv2.INTER_AREA (content modelled by
nearest sampling; no claim depends on resampled values), then divide by
255 into a float32 buffer. -/
def resize_normalize (gray : Image) (target_width : Nat) : Image :=
  let h := gray.height
  let w := gray.width
  let scaleQ : ℚ := (target_width : ℚ) / (w : ℚ)
  let nh : Nat := (⌊(h : ℚ) * scaleQ⌋).toNat
  Image.mk target_width nh 1
    (buildData nh target_width (fun y x =>
      gray.px (if nh = 0 then 0 else y * h / nh)
              (if target_width = 0 then 0 else x * w / target_width) / 255))
    Dtype.f32

/-- Numpy astype(uint8) on a float value: truncation toward zero with
wrap-around modulo 256 (all values reached in the pipeline lie in
[0, 255], where this is plain truncation). -/
def u8cast (v : ℚ) : ℚ := (((⌊v⌋).toNat % 256 : Nat) : ℚ)

/-- correct_format_for_ocr(image): the exit adapter. It calls
resize_normalize(image) with the default target width 800 (it passes no
width argument), then, when the buffer is float32 or float64, multiplies
by 255 and casts to uint8. -/
def correct_format_for_ocr (image : Image) : Image :=
  let r := resize_normalize image 800
  if r.dtype = Dtype.f32 ∨ r.dtype = Dtype.f64 then
    Image.mk r.width r.height r.channels (r.data.map (fun v => u8cast (v * 255)))
      Dtype.u8
  else r

/-- Gamma look-up table entry of enhance_contrast at the default
gamma = 0.5: ((i / 255) ** (1 / gamma)) * 255 = (i * i) / 255, truncated
by astype(uint8). -/
def gammaTable (i : Nat) : ℚ := (((⌊((i : ℚ) / 255) ^ (2 : Nat) * 255⌋).toNat % 256 : Nat) : ℚ)

/-- Modelled: cv2.createCLAHE(4.0, (8, 8)).apply is an external adaptive
histogram equalization; no claim depends on its pixel transform, so the
model keeps the buffer unchanged. -/
def claheModel (gray : Image) : Image := gray

/-- enhance_contrast(gray) at its default parameters (use_gamma = True,
gamma = 0.5, use_clahe = True), the only way the pipeline calls it: apply
the gamma look-up table, then CLAHE. -/
def enhance_contrast (gray : Image) : Image :=
  claheModel (Image.mk gray.width gray.height gray.channels
    (gray.data.map (fun v => gammaTable (⌊v⌋).toNat)) gray.dtype)

/-- Modelled: cv2.fastNlMeansDenoising(gray, None, 5, 9, 31) is an external
non-local-means filter; no claim depends on its pixel transform, so the
model keeps the buffer unchanged. -/
def denoise_image (gray : Image) : Image := gray

/-- Modelled: cv2.filter2D with the fixed unsharp kernel is an external
convolution; no claim depends on its pixel transform, so the model keeps
the buffer unchanged. -/
def sharpen_image (gray : Image) : Image := gray

/-- Modelled: the morphological gradient (cv2.morphologyEx with a 3 by 3
rectangle, then convertScaleAbs) is external; no claim depends on the edge
map, so the model takes a zero gradient. -/
def morphGradientModel (gray : Image) : Image :=
  Image.mk gray.width gray.height gray.channels (gray.data.map (fun _ => 0))
    gray.dtype

/-- Saturating rounded cast used by cv2.addWeighted on 8-bit buffers. -/
def satRound (v : ℚ) : ℚ := ((min 255 (max 0 (round v))).toNat : ℚ)

/-- edge_enhancement(gray) at its defaults (alpha = 0.2, kernel 3 by 3):
blend the morphological gradient onto the image with
cv2.addWeighted(gray, 1.0, grad, 0.2, 0). -/
def edge_enhancement (gray : Image) : Image :=
  let grad := morphGradientModel gray
  Image.mk gray.width gray.height gray.channels
    ((gray.data.zip grad.data).map (fun p => satRound (p.1 + 1 / 5 * p.2)))
    gray.dtype

/-- threshold_image(gray) at its defaults (thresh_value = 80,
max_value = 255, invert = False): cv2.THRESH_BINARY sets a sample to 255
when it is strictly above 80 and to 0 otherwise. -/
def threshold_image (gray : Image) : Image :=
  Image.mk gray.width gray.height gray.channels
    (gray.data.map (fun v => if 80 < v then (255 : ℚ) else 0)) gray.dtype

/-- Modelled: cv2.GaussianBlur, cv2.Canny and cv2.HoughLinesP are external;
the model detects no line segments, so deskew takes the source's explicit
no-lines branch; no claim depends on detected lines. -/
def houghLinesModel (gray : Image) : Option (List (ℤ × ℤ × ℤ × ℤ)) := none

/-- Modelled: the median of the np.degrees(np.arctan2(...)) segment angles
is external float trigonometry; the model detects no lines, so this value
is never used. -/
def medianAngleModel (lines : List (ℤ × ℤ × ℤ × ℤ)) : ℚ := 0

/-- deskew_using_hough(gray): when no line is detected, return the image
unchanged; otherwise rotate by the median segment angle. -/
def deskew_using_hough (gray : Image) : Image :=
  match houghLinesModel gray with
  | none => gray
  | some lines => rotate_bound gray (medianAngleModel lines)

/-- The step_functions dictionary of preprocess_image_custom: step name to
transform, in the source's insertion order. The functions close over the
module-level pytesseract handle (the oracle T) and are called with one
argument, so crop_to_text runs at its defaults min_conf = 60,
margin = 100. -/
def step_functions (T : Tesseract) : List (String × (Image → Image)) :=
  [("contrast", fun g => enhance_contrast g),
   ("denoise", fun g => denoise_image g),
   ("edge_enhancement", fun g => edge_enhancement g),
   ("sharpen", fun g => sharpen_image g),
   ("threshold", fun g => threshold_image g),
   ("deskew", fun g => deskew_using_hough g),
   ("orientation", fun g => correct_orientation T g),
   ("crop", fun g => crop_to_text T g 60 100)]

/-- The loop body of preprocess_image_custom: func = step_functions.get(s);
when found apply it, otherwise log a warning and keep the image. -/
def applyNamedStep (T : Tesseract) (im : Image) (s : String) : Image :=
  match (step_functions T).lookup s with
  | some f => f im
  | none => im

/-- preprocess_image_custom(image, steps, target_width): the entry adapter,
then the named steps in caller order, then the exit adapter. The
target_width parameter (default 800 in the source) is accepted but never
used by the body: the exit adapter resizes with its own default 800. -/
def preprocess_image_custom (T : Tesseract) (image : Image) (steps : List String)
    (target_width : Nat) : Except PipeErr Image :=
  match correct_format_for_preprocessing image with
  | Except.error e => Except.error e
  | Except.ok g => Except.ok (correct_format_for_ocr
      (steps.foldl (applyNamedStep T) g))

/-- Follows the spec's words (section 4.4): one explicit dispatch per
recognized identifier, an unrecognized identifier is skipped. Written
independently of the dictionary lookup of the source for the refinement
proof of the step-order claim. -/
def applyStepSpec (T : Tesseract) (im : Image) (s : String) : Image :=
  if s = "contrast" then enhance_contrast im
  else if s = "denoise" then denoise_image im
  else if s = "edge_enhancement" then edge_enhancement im
  else if s = "sharpen" then sharpen_image im
  else if s = "threshold" then threshold_image im
  else if s = "deskew" then deskew_using_hough im
  else if s = "orientation" then correct_orientation T im
  else if s = "crop" then crop_to_text T im 60 100
  else im

/-- Follows the spec's words (section 4.4): entry conversion, then the
caller-supplied identifiers in exactly the caller-supplied order, each
dispatched explicitly, then exit conversion. -/
def runPipelineSpec (T : Tesseract) (image : Image) (config : List String)
    (targetWidth : Nat) : Except PipeErr Image :=
  match correct_format_for_preprocessing image with
  | Except.error e => Except.error e
  | Except.ok g => Except.ok (correct_format_for_ocr
      (config.foldl (applyStepSpec T) g))

/-- An oracle stub whose OSD call always fails, which recognizes no text
and returns no word records. -/
def stubOracle : Tesseract :=
  Tesseract.mk (fun _ => none) (fun _ => "") (fun _ => [])

/-- A well-formed 1 by 1 single-channel test image. -/
def tinyGray : Image := Image.mk 1 1 1 [7] Dtype.u8

/-- C1: when the four candidates 0, 90, 180, 270 (evaluated in that fixed
order) receive the same combined score, the orientation corrector keeps
the first maximum, so it returns the 0-degree candidate image, and that
image is pixel-identical to the input. -/
theorem correct_orientation_tie_break (T : Tesseract) (gray : Image)
    (hch : gray.channels = 1)
    (hlen : gray.data.length = gray.height * gray.width)
    (h90 : (evaluate_candidate T gray 90).1 = (evaluate_candidate T gray 0).1)
    (h180 : (evaluate_candidate T gray 180).1 = (evaluate_candidate T gray 0).1)
    (h270 : (evaluate_candidate T gray 270).1 = (evaluate_candidate T gray 0).1) :
    correct_orientation T gray = (evaluate_candidate T gray 0).2.1 ∧
    correct_orientation T gray = gray := by
  have h1 : orientStep T gray ⟨none, gray, none⟩ 0
      = ⟨some (evaluate_candidate T gray 0).1,
          (evaluate_candidate T gray 0).2.1, some 0⟩ := rfl
  have hstep : ∀ a : ℚ,
      (evaluate_candidate T gray a).1 = (evaluate_candidate T gray 0).1 →
      orientStep T gray ⟨some (evaluate_candidate T gray 0).1,
          (evaluate_candidate T gray 0).2.1, some 0⟩ a
      = ⟨some (evaluate_candidate T gray 0).1,
          (evaluate_candidate T gray 0).2.1, some 0⟩ := by
    intro a ha
    unfold orientStep
    simp only [ha]
    rw [if_neg (lt_irrefl _)]
  have hfold : correct_orientation T gray = (evaluate_candidate T gray 0).2.1 := by
    unfold correct_orientation
    rw [List.foldl_cons, h1, List.foldl_cons, hstep 90 h90,
      List.foldl_cons, hstep 180 h180, List.foldl_cons, hstep 270 h270,
      List.foldl_nil]
  refine ⟨hfold, ?_⟩
  rw [hfold]
  have himg : (evaluate_candidate T gray 0).2.1 = rotate_bound gray (-0) := rfl
  rw [himg, neg_zero]
  exact rotate_bound_zero gray hch hlen

/-- Witness for C1: with an oracle stub that always fails (so every
candidate scores 0 - 50 * 360), the corrector returns its input
unchanged. -/
theorem correct_orientation_tie_break_w :
    correct_orientation stubOracle tinyGray = tinyGray :=
  (correct_orientation_tie_break stubOracle tinyGray rfl rfl rfl rfl rfl).2

/-- C2: for every candidate angle, the returned candidate image is the
rotation by the negated angle, the combined score is the alphanumeric
count on the candidate image minus 50 times the absolute residual
rotation, and when the oracle fails on the candidate image the residual
rotation used is the sentinel 360. -/
theorem evaluate_candidate_score (T : Tesseract) (gray : Image) (a : ℚ) :
    (evaluate_candidate T gray a).2.1 = rotate_bound gray (-a) ∧
    (evaluate_candidate T gray a).1 =
      (get_ocr_text_score T (rotate_bound gray (-a)) : ℤ)
        - 50 * |(evaluate_candidate T gray a).2.2| ∧
    (T.image_to_osd (rotate_bound gray (-a)) = none →
      (evaluate_candidate T gray a).2.2 = 360) := by
  refine ⟨rfl, rfl, ?_⟩
  intro h
  simp [evaluate_candidate, get_osd_info, h]

/-- Witness for C2: on the failing oracle stub the residual is 360 and the
combined score is 0 - 50 * 360. -/
theorem evaluate_candidate_score_w :
    (evaluate_candidate stubOracle tinyGray 0).2.2 = 360 ∧
    (evaluate_candidate stubOracle tinyGray 0).1 = 0 - 50 * |(360 : ℤ)| := by
  have h := evaluate_candidate_score stubOracle tinyGray 0
  have h3 := h.2.2 rfl
  refine ⟨h3, ?_⟩
  have h2 := h.2.1
  rw [h3] at h2
  have hocr : get_ocr_text_score stubOracle (rotate_bound tinyGray (-0)) = 0 := rfl
  rw [hocr] at h2
  simpa using h2

/-- The exit adapter always produces a buffer of width exactly 800: it
resizes with its own default target width, on both dtype branches. -/
theorem correct_format_for_ocr_width (image : Image) :
    (correct_format_for_ocr image).width = 800 := by
  simp only [correct_format_for_ocr]
  split
  · rfl
  · rfl

/-- C3 (code divergence): whatever target_width the caller passes, every
successful run of preprocess_image_custom returns a buffer of width 800,
because the exit adapter ignores the parameter and resizes with its own
default. -/
theorem pipeline_width_always_800 (T : Tesseract) (image : Image)
    (steps : List String) (t : Nat) (out : Image)
    (h : preprocess_image_custom T image steps t = Except.ok out) :
    out.width = 800 := by
  unfold preprocess_image_custom at h
  cases hc : correct_format_for_preprocessing image with
  | error e =>
      rw [hc] at h
      exact absurd h (by simp)
  | ok g =>
      rw [hc] at h
      have hout := Except.ok.inj h
      rw [← hout]
      exact correct_format_for_ocr_width _

/-- A 1600 by 1 three-channel input (the model reads missing samples as 0,
so the empty data list stands for an all-black buffer). -/
def wideBGR : Image := Image.mk 1600 1 3 [] Dtype.u8

/-- The image produced by the entry adapter on wideBGR. -/
def wideEntry : Image :=
  Image.mk 1600 1 1
    (buildData 1 1600 (fun y x =>
      lumaBGR (wideBGR.px3 y x 0) (wideBGR.px3 y x 1) (wideBGR.px3 y x 2)))
    Dtype.u8

/-- Witness for C3: running the pipeline with target_width 500 on a valid
input still yields width 800, not 500. -/
theorem pipeline_width_always_800_w :
    (correct_format_for_ocr wideEntry).width = 800 ∧ (800 : Nat) ≠ 500 :=
  ⟨pipeline_width_always_800 stubOracle wideBGR [] 500
    (correct_format_for_ocr wideEntry) rfl, by norm_num⟩

/-- C4 (amended): for a source buffer of positive width, the resized height
is the floor (Python int() truncation) of height * target_width / width,
with no minimum clamp. -/
theorem resize_height_truncates (gray : Image) (t : Nat) (hw : 0 < gray.width) :
    (resize_normalize gray t).height =
      (⌊((gray.height : ℚ) * (t : ℚ)) / (gray.width : ℚ)⌋).toNat := by
  unfold resize_normalize
  simp only
  rw [mul_div_assoc]

/-- A 3 by 1 single-channel test image. -/
def threeWide : Image := Image.mk 3 1 1 [0, 0, 0] Dtype.u8

/-- Witness for C4: at width 3, height 1, target 800 the resized height is
the floor of 800 / 3. -/
theorem resize_height_truncates_w :
    0 < threeWide.width ∧
    (resize_normalize threeWide 800).height =
      (⌊((threeWide.height : ℚ) * (800 : ℚ)) / (threeWide.width : ℚ)⌋).toNat :=
  ⟨by norm_num [threeWide], resize_height_truncates threeWide 800 (by norm_num [threeWide])⟩

/-- Counterexample for C4 as stated: at width 3, height 1, target 800 the
code computes height int(1 * 800 / 3) = 266, while
round(1 * 800 / 3) = 267 (and the claimed minimum-1 clamp plays no role
here); so the height is not round(h * t / w) with minimum 1. -/
theorem resize_height_round_cex :
    (resize_normalize threeWide 800).height ≠
      (max 1 (round (((threeWide.height : ℚ) * 800) / (threeWide.width : ℚ)))).toNat := by
  have h1 : (resize_normalize threeWide 800).height = 266 := by
    show (⌊((1 : Nat) : ℚ) * (((800 : Nat) : ℚ) / ((3 : Nat) : ℚ))⌋).toNat = 266
    have : (((1 : Nat) : ℚ)) * (((800 : Nat) : ℚ) / ((3 : Nat) : ℚ)) = 800 / 3 := by
      push_cast
      ring
    rw [this]
    have hfl : ⌊(800 : ℚ) / 3⌋ = 266 := by
      rw [Int.floor_eq_iff]
      norm_num
    rw [hfl]
    rfl
  have h2 : (max 1 (round (((threeWide.height : ℚ) * 800) / (threeWide.width : ℚ)))).toNat = 267 := by
    have : ((threeWide.height : ℚ) * 800) / (threeWide.width : ℚ) = 800 / 3 := by
      show (((1 : Nat) : ℚ) * 800) / ((3 : Nat) : ℚ) = 800 / 3
      push_cast
      ring
    rw [this, round_eq]
    have hfl : ⌊(800 : ℚ) / 3 + 1 / 2⌋ = 267 := by
      rw [Int.floor_eq_iff]
      norm_num
    rw [hfl]
    rfl
  rw [h1, h2]
  norm_num

/-- The dictionary lookup of the source and the explicit dispatch of the
spec agree on every identifier. -/
theorem applyNamedStep_eq_spec (T : Tesseract) (im : Image) (s : String) :
    applyNamedStep T im s = applyStepSpec T im s := by
  unfold applyNamedStep applyStepSpec step_functions
  by_cases h1 : s = "contrast"
  · subst h1; rfl
  by_cases h2 : s = "denoise"
  · subst h2; rfl
  by_cases h3 : s = "edge_enhancement"
  · subst h3; rfl
  by_cases h4 : s = "sharpen"
  · subst h4; rfl
  by_cases h5 : s = "threshold"
  · subst h5; rfl
  by_cases h6 : s = "deskew"
  · subst h6; rfl
  by_cases h7 : s = "orientation"
  · subst h7; rfl
  by_cases h8 : s = "crop"
  · subst h8; rfl
  have e1 : (s == "contrast") = false := beq_eq_false_iff_ne.mpr h1
  have e2 : (s == "denoise") = false := beq_eq_false_iff_ne.mpr h2
  have e3 : (s == "edge_enhancement") = false := beq_eq_false_iff_ne.mpr h3
  have e4 : (s == "sharpen") = false := beq_eq_false_iff_ne.mpr h4
  have e5 : (s == "threshold") = false := beq_eq_false_iff_ne.mpr h5
  have e6 : (s == "deskew") = false := beq_eq_false_iff_ne.mpr h6
  have e7 : (s == "orientation") = false := beq_eq_false_iff_ne.mpr h7
  have e8 : (s == "crop") = false := beq_eq_false_iff_ne.mpr h8
  simp [List.lookup, e1, e2, e3, e4, e5, e6, e7, e8, h1, h2, h3, h4, h5, h6, h7, h8]

/-- C5: the pipeline refines the spec's executor: entry conversion, then
the caller-supplied identifiers applied in exactly the caller-supplied
order (duplicates preserved, nothing reordered, dropped or inserted), then
exit conversion. -/
theorem pipeline_matches_ordered_spec (T : Tesseract) (image : Image)
    (steps : List String) (t : Nat) :
    preprocess_image_custom T image steps t = runPipelineSpec T image steps t := by
  unfold preprocess_image_custom runPipelineSpec
  cases hc : correct_format_for_preprocessing image with
  | error e => rfl
  | ok g =>
      have hfun : applyNamedStep T = applyStepSpec T :=
        funext (fun im => funext (fun s => applyNamedStep_eq_spec T im s))
      rw [hfun]

/-- C6: an identifier that is not one of the eight recognized step names is
skipped, and the run produces exactly the output of the run with that
identifier removed. -/
theorem unknown_step_skipped (T : Tesseract) (image : Image)
    (pre post : List String) (s : String) (t : Nat)
    (hs : s ∉ (["contrast", "denoise", "edge_enhancement", "sharpen",
      "threshold", "deskew", "orientation", "crop"] : List String)) :
    preprocess_image_custom T image (pre ++ s :: post) t
      = preprocess_image_custom T image (pre ++ post) t := by
  simp only [List.mem_cons, List.not_mem_nil, or_false] at hs
  push_neg at hs
  obtain ⟨h1, h2, h3, h4, h5, h6, h7, h8⟩ := hs
  have e1 : (s == "contrast") = false := beq_eq_false_iff_ne.mpr h1
  have e2 : (s == "denoise") = false := beq_eq_false_iff_ne.mpr h2
  have e3 : (s == "edge_enhancement") = false := beq_eq_false_iff_ne.mpr h3
  have e4 : (s == "sharpen") = false := beq_eq_false_iff_ne.mpr h4
  have e5 : (s == "threshold") = false := beq_eq_false_iff_ne.mpr h5
  have e6 : (s == "deskew") = false := beq_eq_false_iff_ne.mpr h6
  have e7 : (s == "orientation") = false := beq_eq_false_iff_ne.mpr h7
  have e8 : (s == "crop") = false := beq_eq_false_iff_ne.mpr h8
  have hid : ∀ im, applyNamedStep T im s = im := by
    intro im
    unfold applyNamedStep step_functions
    simp [List.lookup, e1, e2, e3, e4, e5, e6, e7, e8]
  unfold preprocess_image_custom
  cases hc : correct_format_for_preprocessing image with
  | error e => rfl
  | ok g =>
      simp only
      rw [List.foldl_append, List.foldl_append, List.foldl_cons, hid]

/-- Witness for C6: the unknown identifier blur is skipped. -/
theorem unknown_step_skipped_w :
    preprocess_image_custom stubOracle wideBGR ["blur"] 800
      = preprocess_image_custom stubOracle wideBGR [] 800 :=
  unknown_step_skipped stubOracle wideBGR [] [] "blur" 800 (by decide)

/-- C7: when no word box survives the confidence filter, the crop step
returns its input unchanged. -/
theorem crop_no_surviving_box_identity (T : Tesseract) (gray : Image)
    (mc : ℚ) (mg : ℤ)
    (h : boxesOf (T.image_to_data gray) mc = []) :
    crop_to_text T gray mc mg = gray := by
  simp [crop_to_text, h, crop_rect]

/-- Witness for C7: an oracle stub returning zero word boxes makes crop the
identity. -/
theorem crop_no_surviving_box_identity_w :
    crop_to_text stubOracle tinyGray 60 100 = tinyGray :=
  crop_no_surviving_box_identity stubOracle tinyGray 60 100 rfl

/-- C8: the margin-expanded crop rectangle the crop step computes is
clamped to the image bounds: 0 is a lower bound of x_min and y_min, and
x_max and y_max are bounded by width and height. -/
theorem crop_rect_clamped (T : Tesseract) (gray : Image) (mc : ℚ) (mg : ℤ)
    (r : ℤ × ℤ × ℤ × ℤ)
    (h : crop_rect gray (boxesOf (T.image_to_data gray) mc) mg = some r) :
    0 ≤ r.1 ∧ 0 ≤ r.2.1 ∧ r.2.2.1 ≤ (gray.width : ℤ) ∧
      r.2.2.2 ≤ (gray.height : ℤ) := by
  cases hb : boxesOf (T.image_to_data gray) mc with
  | nil =>
      rw [hb] at h
      exact absurd h (by simp [crop_rect])
  | cons b bs =>
      rw [hb] at h
      simp only [crop_rect] at h
      have hr := Option.some.inj h
      rw [← hr]
      exact ⟨le_max_right _ _, le_max_right _ _, min_le_right _ _, min_le_right _ _⟩

/-- An oracle stub returning one confident word box. -/
def boxOracle : Tesseract :=
  Tesseract.mk (fun _ => none) (fun _ => "")
    (fun _ => [TessWord.mk "hi" (some 90) 2 3 4 5])

/-- Witness for C8: with one surviving box on the 1 by 1 image, the clamped
rectangle is (0, 0, 1, 1), inside the bounds. -/
theorem crop_rect_clamped_w :
    0 ≤ ((0, 0, 1, 1) : ℤ × ℤ × ℤ × ℤ).1 ∧
    0 ≤ ((0, 0, 1, 1) : ℤ × ℤ × ℤ × ℤ).2.1 ∧
    ((0, 0, 1, 1) : ℤ × ℤ × ℤ × ℤ).2.2.1 ≤ (tinyGray.width : ℤ) ∧
    ((0, 0, 1, 1) : ℤ × ℤ × ℤ × ℤ).2.2.2 ≤ (tinyGray.height : ℤ) :=
  crop_rect_clamped boxOracle tinyGray 60 100 (0, 0, 1, 1) (by decide)

/-- Both branches of the entry adapter characterized: success exactly on
nonempty 3- or 4-channel buffers, and the output is single-channel with
the source dimensions. -/
theorem entry_adapter_characterization (image : Image) :
    ((∃ out, correct_format_for_preprocessing image = Except.ok out) ↔
      ((image.channels = 3 ∨ image.channels = 4) ∧
        image.width ≠ 0 ∧ image.height ≠ 0)) ∧
    (∀ out, correct_format_for_preprocessing image = Except.ok out →
      out.channels = 1 ∧ out.width = image.width ∧ out.height = image.height) := by
  unfold correct_format_for_preprocessing cvtColorBGR2GRAY
  by_cases hz : image.width = 0 ∨ image.height = 0
  · rw [if_pos hz]
    constructor
    · constructor
      · rintro ⟨out, hout⟩
        exact absurd hout (by simp)
      · rintro ⟨hc, hw, hh⟩
        exact absurd hz (by tauto)
    · intro out hout
      exact absurd hout (by simp)
  · rw [if_neg hz]
    push_neg at hz
    by_cases hc : image.channels = 3 ∨ image.channels = 4
    · rw [if_pos hc]
      refine ⟨⟨fun _ => ⟨hc, hz.1, hz.2⟩, fun _ => ⟨_, rfl⟩⟩, ?_⟩
      intro out hout
      have ho := Except.ok.inj hout
      rw [← ho]
      exact ⟨rfl, rfl, rfl⟩
    · rw [if_neg hc]
      constructor
      · constructor
        · rintro ⟨out, hout⟩
          exact absurd hout (by simp)
        · rintro ⟨hcc, hw, hh⟩
          exact absurd hcc hc
      · intro out hout
        exact absurd hout (by simp)

/-- Counterexample for C9 as stated: a nonempty single-channel grayscale
input is not accepted; the entry adapter (cv2.cvtColor with
COLOR_BGR2GRAY) raises on it. -/
theorem entry_adapter_rejects_gray_cex :
    correct_format_for_preprocessing (Image.mk 2 2 1 [1, 2, 3, 4] Dtype.u8)
      = Except.error PipeErr.formatError := rfl

/-- Witness for C9: a 3-channel input is accepted and normalized to a
single-channel buffer of the same dimensions. -/
theorem entry_adapter_characterization_w :
    correct_format_for_preprocessing wideBGR = Except.ok wideEntry ∧
    wideEntry.channels = 1 :=
  ⟨rfl, ((entry_adapter_characterization wideBGR).2 wideEntry rfl).1⟩

/-- A word whose confidence field fails to parse is dropped by the
confidence filter whenever the cutoff is positive: its effective
confidence is 0. -/
theorem boxesOf_filter_parsable (words : List TessWord) (mc : ℚ) (hmc : 0 < mc) :
    boxesOf (words.filter (fun wd => wd.conf.isSome)) mc = boxesOf words mc := by
  induction words with
  | nil => rfl
  | cons wd rest ih =>
      have ih2 : List.filterMap
          (fun wd => if mc < wd.conf.getD 0 ∧ stripText wd.text ≠ "" then
            some (wd.left, wd.top, wd.left + wd.boxW, wd.top + wd.boxH) else none)
          (List.filter (fun wd => wd.conf.isSome) rest)
          = List.filterMap
          (fun wd => if mc < wd.conf.getD 0 ∧ stripText wd.text ≠ "" then
            some (wd.left, wd.top, wd.left + wd.boxW, wd.top + wd.boxH) else none)
          rest := ih
      cases hconf : wd.conf with
      | none =>
          have hcond : ¬(mc < (Option.getD (none : Option ℚ) 0) ∧
              stripText wd.text ≠ "") := by
            rintro ⟨hlt, _⟩
            simp only [Option.getD_none] at hlt
            exact absurd hlt (not_lt_of_gt hmc)
          simp only [boxesOf, List.filter_cons, hconf, Option.isSome_none,
            Bool.false_eq_true, if_false, List.filterMap_cons, hcond]
          exact ih2
      | some q =>
          simp only [boxesOf, List.filter_cons, hconf, Option.isSome_some,
            if_true, List.filterMap_cons, hconf]
          rw [ih2]

/-- C10: replacing the oracle by one whose word list drops every entry with
an unparsable confidence field does not change the crop output, for any
positive cutoff: unparsable entries never contribute to the crop
rectangle. -/
theorem unparsable_conf_excluded (T T2 : Tesseract) (gray : Image)
    (mc : ℚ) (mg : ℤ) (hmc : 0 < mc)
    (hT : T2.image_to_data gray
      = (T.image_to_data gray).filter (fun wd => wd.conf.isSome)) :
    crop_to_text T2 gray mc mg = crop_to_text T gray mc mg := by
  unfold crop_to_text
  rw [hT, boxesOf_filter_parsable (T.image_to_data gray) mc hmc]

/-- An oracle stub returning one word record whose confidence field does
not parse. -/
def unparsableOracle : Tesseract :=
  Tesseract.mk (fun _ => none) (fun _ => "")
    (fun _ => [TessWord.mk "zz" none 0 0 5 5])

/-- Witness for C10: at the default cutoff 60 the unparsable record is
dropped, so cropping behaves as with no records at all. -/
theorem unparsable_conf_excluded_w :
    crop_to_text stubOracle tinyGray 60 100
      = crop_to_text unparsableOracle tinyGray 60 100 :=
  unparsable_conf_excluded unparsableOracle stubOracle tinyGray 60 100
    (by norm_num) rfl

end OCR
